import Mathlib

/-!
# Verification of the query-analytics clustering and reporting engine

Shallow embedding of `app/services/analytics_reporting_service.py` (together
with the event-store helpers it uses from `app/services/firestore_service.py`)
and proofs of the specification claims about it.

Modelling conventions:

* Python floats are modelled as `ℚ` (exact arithmetic); the float literal
  `1e-10` is modelled as the exact rational `1/10^10`.
* Firestore events are dictionaries; the fields the engine reads are modelled
  as the structure `Event`.  A missing `query_text` key is modelled as `""`
  (the source always reads it as `event.get('query_text', '')`), a missing
  `query_vector`/`rating` key as `none`.
* Python truthiness on the relevant values: `None`, `""` and `[]` are falsy;
  this is made explicit in `vectorTruthy` and `ratingFalsy` below.
* External collaborators (the MiniBatchKMeans fits of scikit-learn and the
  LLM label generation) are parameters of the embedding; the input-validation
  behaviour of MiniBatchKMeans (it rejects an empty sample matrix, a
  non-positive cluster count, and more clusters than samples) is kept
  concrete in `_perform_clustering` because the pipeline's control flow
  depends on it.
-/

namespace Playground

attribute [local semireducible] Rat.add Rat.sub Rat.mul Rat.inv Rat.ofScientific

/-- One analytics event document, restricted to the fields the engine reads.
`doc_id` is the Firestore document id, `etype` the `type` field,
`query_text` the query (with `""` standing for an absent field),
`query_vector` the optional embedding, `rating` the optional rating string. -/
structure Event where
  doc_id : String
  etype : String
  query_text : String
  query_vector : Option (List ℚ)
  rating : Option String
deriving DecidableEq, Repr, Inhabited

/-- Python truthiness of an optional vector value: `None` and `[]` are falsy.
Models the filter `e.get('query_vector')` in `_extract_vectors`. -/
def vectorTruthy : Option (List ℚ) → Bool
  | none => false
  | some v => !v.isEmpty

/-- Python truthiness test `not event.get('rating')`: true when the rating
field is absent or the empty string. -/
def ratingFalsy : Option String → Bool
  | none => true
  | some s => s.isEmpty

/-- `np.diff`: successive differences `a[i+1] - a[i]`. -/
def npDiff (l : List ℚ) : List ℚ :=
  List.zipWith (fun a b => b - a) l l.tail

/-- Auxiliary loop for `npArgmax`: scans the remaining list keeping the
current best value, its index, and the index of the next element. -/
def npArgmaxAux (best : ℚ) (bestIdx : Nat) (i : Nat) : List ℚ → Nat
  | [] => bestIdx
  | x :: xs =>
    if best < x then npArgmaxAux x i (i + 1) xs
    else npArgmaxAux best bestIdx (i + 1) xs

/-- `np.argmax`: index of the first occurrence of the maximum
(`0` on the empty list, which `np.argmax` rejects; the engine never calls it
on an empty list on the paths verified here). -/
def npArgmax : List ℚ → Nat
  | [] => 0
  | x :: xs => npArgmaxAux x 0 1 xs

/-- Lines 91–111 of `determine_optimal_clusters`: choose `k` from the recorded
inertia curve.  `kValues` is the Python `range(1, max_k + 1)`. -/
def chooseKFromInertias (inertias : List ℚ) (kValues : List Nat) : Nat :=
  if inertias.length < 3 then inertias.length
  else
    let mn := inertias.min?.getD 0
    let mx := inertias.max?.getD 0
    let inertiasNormalized := inertias.map (fun x => (x - mn) / (mx - mn + 1 / 10000000000))
    let differences := npDiff inertiasNormalized
    let secondDiff := npDiff differences
    let elbowIndex := min (npArgmax secondDiff + 2) (kValues.length - 1)
    kValues.getD elbowIndex 0

/-- `determine_optimal_clusters(vectors, max_clusters)`.
`inertia vectors k` models fitting `MiniBatchKMeans(n_clusters=k,
random_state=42, batch_size=100)` on `vectors` and reading `kmeans.inertia_`;
an `Except.error` result models the fit raising, which the source catches with
its blanket `except` handler (line 117) and answers with
`min(5, len(vectors) // 10)` (line 120).

`collectInertias` is the fitting loop of lines 83–87: one fit per candidate
`k`, aborting to the handler at the first failure. -/
def collectInertias (inertia : List (List ℚ) → Nat → Except String ℚ)
    (vectors : List (List ℚ)) : List Nat → Except String (List ℚ)
  | [] => .ok []
  | k :: ks =>
    match inertia vectors k with
    | .error e => .error e
    | .ok i =>
      match collectInertias inertia vectors ks with
      | .error e => .error e
      | .ok rest => .ok (i :: rest)

def determine_optimal_clusters (inertia : List (List ℚ) → Nat → Except String ℚ)
    (vectors : List (List ℚ)) (max_clusters : Int) : Nat :=
  if min max_clusters ((vectors.length : Int) - 1) < 2 then 1
  else
    match collectInertias inertia vectors
        (List.range' 1 (min max_clusters ((vectors.length : Int) - 1)).toNat) with
    | .error _ => min 5 (vectors.length / 10)
    | .ok inertias =>
      chooseKFromInertias inertias
        (List.range' 1 (min max_clusters ((vectors.length : Int) - 1)).toNat)

/-- The two collaborator calls into the clustering library.
`inertia v k` is the inertia of a `MiniBatchKMeans(n_clusters=k,
random_state=42, batch_size=100)` fit on `v` (`Except.error` models the fit
raising); `fitPredict v k` is the `(labels, cluster_centers)` pair of
`fit_predict` on a well-formed input.  The deterministic seed makes both
functions of `(v, k)` only. -/
structure MiniBatchKMeansModel where
  inertia : List (List ℚ) → Nat → Except String ℚ
  fitPredict : List (List ℚ) → Nat → List Nat × List (List ℚ)

/-- `_extract_vectors(events)`: keep the events whose `query_vector` is truthy
(present and non-empty), and return the aligned vector matrix and doc-id
list. -/
def _extract_vectors (events : List Event) : List (List ℚ) × List String :=
  let events_with_vectors := events.filter (fun e => vectorTruthy e.query_vector)
  (events_with_vectors.map (fun e => e.query_vector.getD []),
   events_with_vectors.map (fun e => e.doc_id))

/-- `_perform_clustering(vectors, n_clusters)`.  The guard models the input
validation scikit-learn performs before fitting: it raises `ValueError` on an
empty sample matrix, on `n_clusters < 1`, and on `n_samples < n_clusters`;
on valid input the fit returns labels and centers. -/
def _perform_clustering (m : MiniBatchKMeansModel) (vectors : List (List ℚ))
    (n_clusters : Nat) : Except String (List Nat × List (List ℚ)) :=
  if vectors.length = 0 ∨ n_clusters = 0 ∨ vectors.length < n_clusters then
    .error "MiniBatchKMeans: invalid input (need 1 <= n_clusters <= n_samples, n_samples >= 1)"
  else
    .ok (m.fitPredict vectors n_clusters)

/-- Structural-recursion core of `chunked10`: `fuel` only bounds the
recursion depth (any `fuel ≥ length` gives the same result, see
`chunked10Fuel_congr`). -/
def chunked10Fuel : Nat → List α → List (List α)
  | _, [] => []
  | 0, _ :: _ => []
  | fuel + 1, x :: xs => ((x :: xs).take 10) :: chunked10Fuel fuel ((x :: xs).drop 10)

/-- The batching loop of `get_analytics_events_by_ids`: the successive
slices `doc_ids[i:i+10]` for `i in range(0, len(doc_ids), 10)`
(`batch_size = 10`). -/
def chunked10 (l : List α) : List (List α) :=
  chunked10Fuel l.length l

/-- `firestore_service.get_analytics_events_by_ids(doc_ids)` against the
collection `db`.  Each batch issues a Firestore `__name__ in batch` query;
the streamed results of such a query come back in the store's canonical
iteration order (ascending document id — the query has no `order_by` and
Firestore then orders by document name), **not** in the order of the `in`
list.  The collection is modelled as the list `db` in that canonical order,
so one batch returns `db.filter (· ∈ batch)`. -/
def get_analytics_events_by_ids (db : List Event) (doc_ids : List String) : List Event :=
  (chunked10 doc_ids).flatMap (fun batch => db.filter (fun e => batch.contains e.doc_id))

/-- Squared Euclidean distance.  The source sorts by
`np.linalg.norm(v - centroid)`; squaring is strictly monotone on
non-negative reals, so sorting by the squared distance produces the same
order (ties included) while staying inside `ℚ`. -/
def squaredDistance (v w : List ℚ) : ℚ :=
  (List.zipWith (fun a b => (a - b) ^ 2) v w).sum

/-- `_label_cluster(query_texts)`.  The external text-generation call, its
quote-stripping and its per-cluster exception fallback (which never
propagates) are abstracted as the total collaborator function `g`; only the
empty-input constant is taken from the source. -/
def _label_cluster (g : List String → String) (query_texts : List String) : String :=
  if query_texts.isEmpty then "Miscellaneous Questions" else g query_texts

/-- The value stored under one label in the report's `clusters` mapping:
`{'count': …, 'sample_queries': …, 'ratings': {'good': …, 'bad': …,
'none': …}}`. -/
structure ClusterSummary where
  count : Nat
  sample_queries : List String
  good : Nat
  bad : Nat
  «none» : Nat
deriving DecidableEq, Repr, Inhabited

/-- One iteration of the per-cluster loop of `run_daily_analytics`
(lines 203–249) for `cluster_id`: `Option.none` when the cluster is empty
(the `continue`), otherwise the `(cluster_label, summary)` pair stored into
the `clusters` dict. -/
def clusterEntry (db : List Event) (g : List String → String)
    (vectors : List (List ℚ)) (doc_ids : List String)
    (cluster_labels : List Nat) (cluster_centers : List (List ℚ))
    (cluster_id : Nat) : Option (String × ClusterSummary) :=
  let cluster_indices :=
    (List.range cluster_labels.length).filter (fun i => cluster_labels.getD i 0 == cluster_id)
  if cluster_indices.isEmpty then Option.none
  else
    let centroid := cluster_centers.getD cluster_id []
    let sorted_cluster_indices :=
      List.insertionSort
        (fun i j => squaredDistance (vectors.getD i []) centroid ≤
                    squaredDistance (vectors.getD j []) centroid)
        cluster_indices
    let cluster_doc_ids := sorted_cluster_indices.map (fun i => doc_ids.getD i "")
    let all_cluster_events := get_analytics_events_by_ids db cluster_doc_ids
    let good_count := all_cluster_events.countP (fun e => e.rating == some "helpful")
    let bad_count := all_cluster_events.countP (fun e => e.rating == some "not_helpful")
    let none_count := all_cluster_events.countP (fun e => ratingFalsy e.rating)
    let cluster_events := all_cluster_events.take 10
    let query_texts := (cluster_events.filter (fun e => !e.query_text.isEmpty)).map (fun e => e.query_text)
    let cluster_label := _label_cluster g query_texts
    some (cluster_label,
      { count := cluster_doc_ids.length
        sample_queries := query_texts.take 3
        good := good_count
        bad := bad_count
        «none» := none_count })

/-- Python-dict insertion `clusters[label] = value`: overwrite in place when
the key exists (keeping its position), append otherwise. -/
def dictInsert (d : List (String × ClusterSummary)) (kv : String × ClusterSummary) :
    List (String × ClusterSummary) :=
  if d.any (fun p => p.1 == kv.1) then
    d.map (fun p => if p.1 == kv.1 then kv else p)
  else d ++ [kv]

/-- The whole per-cluster loop: the ordered `(label, summary)` pairs of the
non-empty clusters, before they are folded into the label-keyed dict. -/
def clusterPairs (db : List Event) (g : List String → String)
    (vectors : List (List ℚ)) (doc_ids : List String)
    (cluster_labels : List Nat) (cluster_centers : List (List ℚ))
    (n_clusters : Nat) : List (String × ClusterSummary) :=
  (List.range n_clusters).filterMap (clusterEntry db g vectors doc_ids cluster_labels cluster_centers)

/-- The report dictionary returned by `run_daily_analytics` (the volatile
`generated_at` wall-clock field is omitted; `status` is encoded by the
constructor: `insufficient` ↔ `'insufficient_data'`, `complete` ↔
`'complete'`). -/
structure CompleteReport where
  playground_id : String
  total_queries : Nat
  num_clusters : Nat
  optimal_clusters : Nat
  auto_detected : Bool
  clusters : List (String × ClusterSummary)
deriving DecidableEq, Repr, Inhabited

/-- Result value of one pipeline run. -/
inductive RunReport where
  | insufficient (total_queries : Nat) (message : String)
  | complete (report : CompleteReport)
deriving DecidableEq, Repr, Inhabited

/-- Steps 2.5 of `run_daily_analytics` (lines 184–191): the cluster count
the run will use — the elbow method's answer when `auto_detect_clusters`
is on (note: this branch wins even when the caller supplied `n_clusters`),
otherwise the supplied `n_clusters`, defaulting to `5`. -/
def selectedK (db : List Event) (m : MiniBatchKMeansModel)
    (n_clusters : Option Nat) (auto_detect_clusters : Bool) : Nat :=
  if auto_detect_clusters then
    determine_optimal_clusters m.inertia
      (_extract_vectors (db.filter (fun e => e.etype == "chat"))).1 15
  else match n_clusters with
    | Option.none => 5
    | some k₀ => k₀

/-- `run_daily_analytics(playground_id, n_clusters, auto_detect_clusters)`.

`db` is the tenant's analytics collection in store order; the initial fetch
is `get_analytics_events(playground_id, event_type='chat')`, i.e. the events
whose `type` field is `'chat'`.  The returned `Bool` records whether
`firestore_service.save_analytics_report` was reached (persistence itself is
assumed to succeed; its failure would propagate, which no claim exercises).
An `Except.error` models the pipeline raising (re-raised by the
`except` handler at line 272). -/
def run_daily_analytics (db : List Event) (m : MiniBatchKMeansModel)
    (g : List String → String) (playground_id : String)
    (n_clusters : Option Nat) (auto_detect_clusters : Bool) :
    Except String (RunReport × Bool) :=
  let events := db.filter (fun e => e.etype == "chat")
  if events.length < 5 then
    .ok (.insufficient events.length "Need at least 5 queries to generate analytics", false)
  else
    let vd := _extract_vectors events
    let k := selectedK db m n_clusters auto_detect_clusters
    match _perform_clustering m vd.1 k with
    | .error e => .error e
    | .ok (cluster_labels, cluster_centers) =>
      let pairs := clusterPairs db g vd.1 vd.2 cluster_labels cluster_centers k
      let clusters := pairs.foldl dictInsert []
      .ok (.complete
        { playground_id := playground_id
          total_queries := events.length
          num_clusters := clusters.length
          optimal_clusters := k
          auto_detected := auto_detect_clusters
          clusters := clusters }, true)

/-- The `(label, summary)` pairs a given run produces, expressed as a
function of the run's inputs (used to state claims about label collisions).
Matches the internal `pairs` of `run_daily_analytics` whenever that run
reaches the per-cluster loop. -/
def pipelinePairs (db : List Event) (m : MiniBatchKMeansModel)
    (g : List String → String) (n_clusters : Option Nat)
    (auto_detect_clusters : Bool) : List (String × ClusterSummary) :=
  let events := db.filter (fun e => e.etype == "chat")
  let vd := _extract_vectors events
  let k := selectedK db m n_clusters auto_detect_clusters
  let lc := m.fitPredict vd.1 k
  clusterPairs db g vd.1 vd.2 lc.1 lc.2 k

/-- Project the complete report out of a run result, if any. -/
def reportOf : Except String (RunReport × Bool) → Option CompleteReport
  | .ok (.complete r, _) => some r
  | _ => Option.none

/-- The claim-side ordering of §4.4 / §8, written from the spec's words for
refinement comparison: a cluster's member events ordered by non-decreasing
distance to the centroid (ties by original position), projected to their
query texts. -/
def claimDistanceOrderedTexts (members : List Event) (centroid : List ℚ) : List String :=
  (List.insertionSort
    (fun e f => squaredDistance (e.query_vector.getD []) centroid ≤
                squaredDistance (f.query_vector.getD []) centroid)
    members).map (fun e => e.query_text)

/-- The claim-side min-max normalization of §4.2, written from the spec's
words for refinement comparison: the source divides by
`max - min + 1e-10`, the spec's words just say "min-max normalize". -/
def minMaxNormalizeSpec (l : List ℚ) : List ℚ :=
  l.map (fun x => (x - l.min?.getD 0) / (l.max?.getD 0 - l.min?.getD 0))

/-- Concrete test event: `doc_id = dᵢ`, type `chat`, `query_text = qᵢ`. -/
def mkEvent (i : Nat) (vec : Option (List ℚ)) (r : Option String) : Event :=
  { doc_id := "d" ++ toString i
    etype := "chat"
    query_text := "q" ++ toString i
    query_vector := vec
    rating := r }

/-- A deterministic inertia oracle: a strictly convex decreasing curve whose
elbow heuristics are easy to read off. -/
def fixtureInertia : List (List ℚ) → Nat → Except String ℚ :=
  fun _ k =>
    .ok ([(10 : ℚ), 4, 2, 1, 1/2, 1/4, 1/8, 1/16, 1/32, 1/64, 1/128, 1/256, 1/512, 1/1024].getD (k - 1) 0)

/-- A deterministic well-formed clusterer: vector `i` goes to cluster
`i % k`; centre `j` is the `j`-th input vector. -/
def fixtureFitPredict : List (List ℚ) → Nat → List Nat × List (List ℚ) :=
  fun v k => ((List.range v.length).map (fun i => i % k), (List.range k).map (fun j => v.getD j []))

/-- The default collaborator model used by concrete runs. -/
def fixtureModel : MiniBatchKMeansModel :=
  ⟨fixtureInertia, fixtureFitPredict⟩

/-- A collaborator model whose clustering fits always raise. -/
def failingInertia : List (List ℚ) → Nat → Except String ℚ :=
  fun _ _ => .error "MiniBatchKMeans unavailable"

/-- Clusterer model for the hydration-order scenario: one cluster whose
centroid `[4]` is nearest to the *last* stored vector. -/
def fixtureModelFar : MiniBatchKMeansModel :=
  ⟨fixtureInertia, fun v _ => (v.map (fun _ => 0), [[(4 : ℚ)]])⟩

/-- A labeler that always produces the same label. -/
def constLabeler : List String → String := fun _ => "Course Questions"

/-- Five chat events with 1-dimensional embeddings `[0] … [4]` and a mix of
ratings. -/
def db5 : List Event :=
  [ mkEvent 1 (some [0]) Option.none
  , mkEvent 2 (some [1]) (some "helpful")
  , mkEvent 3 (some [2]) (some "not_helpful")
  , mkEvent 4 (some [3]) Option.none
  , mkEvent 5 (some [4]) Option.none ]

/-- Four chat events (one short of the minimum viable sample). -/
def db4 : List Event := db5.take 4

/-- Five chat events none of which carries an embedding. -/
def dbNoVec5 : List Event :=
  [ mkEvent 1 Option.none Option.none
  , mkEvent 2 Option.none Option.none
  , mkEvent 3 Option.none Option.none
  , mkEvent 4 Option.none Option.none
  , mkEvent 5 Option.none Option.none ]

/-- Another five embedding-free chat events (distinct ids/texts). -/
def dbNoVecB : List Event :=
  [ mkEvent 6 Option.none Option.none
  , mkEvent 7 Option.none Option.none
  , mkEvent 8 Option.none Option.none
  , mkEvent 9 Option.none Option.none
  , mkEvent 10 Option.none (some "helpful") ]

/-- The five 1-dimensional vectors of `db5`. -/
def vecs5 : List (List ℚ) := [[0], [1], [2], [3], [4]]

/-! ## Helper lemmas -/

theorem collectInertias_ok_length (inertia : List (List ℚ) → Nat → Except String ℚ)
    (vectors : List (List ℚ)) :
    ∀ (ks : List Nat) (bs : List ℚ),
      collectInertias inertia vectors ks = .ok bs → bs.length = ks.length := by
  intro ks
  induction ks with
  | nil => intro bs h; simp only [collectInertias] at h; injection h with h; simp [← h]
  | cons k t ih =>
    intro bs h
    simp only [collectInertias] at h
    cases hk : inertia vectors k with
    | error e => rw [hk] at h; exact absurd h (by simp)
    | ok i =>
      rw [hk] at h
      cases ht : collectInertias inertia vectors t with
      | error e => rw [ht] at h; exact absurd h (by simp)
      | ok rest =>
        rw [ht] at h
        injection h with h
        simp [← h, ih rest ht]

theorem collectInertias_ok_of_forall (inertia : List (List ℚ) → Nat → Except String ℚ)
    (vectors : List (List ℚ)) :
    ∀ (ks : List Nat), (∀ k ∈ ks, ∃ i, inertia vectors k = .ok i) →
      ∃ bs, collectInertias inertia vectors ks = .ok bs ∧ bs.length = ks.length := by
  intro ks
  induction ks with
  | nil => intro _; exact ⟨[], rfl, rfl⟩
  | cons k t ih =>
    intro h
    obtain ⟨i, hi⟩ := h k (List.mem_cons_self k t)
    obtain ⟨bs, hbs, hlen⟩ := ih (fun x hx => h x (List.mem_cons_of_mem k hx))
    exact ⟨i :: bs, by simp only [collectInertias, hi, hbs], by simp [hlen]⟩

theorem collectInertias_error_of_exists (inertia : List (List ℚ) → Nat → Except String ℚ)
    (vectors : List (List ℚ)) :
    ∀ (ks : List Nat), (∃ k ∈ ks, ∃ e, inertia vectors k = .error e) →
      ∃ e, collectInertias inertia vectors ks = .error e := by
  intro ks
  induction ks with
  | nil => rintro ⟨k, hk, _⟩; exact absurd hk (List.not_mem_nil k)
  | cons x t ih =>
    rintro ⟨k, hk, e, he⟩
    cases hfx : inertia vectors x with
    | error e₀ => exact ⟨e₀, by simp only [collectInertias, hfx]⟩
    | ok i =>
      have hkt : k ∈ t := by
        rcases List.mem_cons.mp hk with h | h
        · subst h; rw [hfx] at he; exact absurd he (by simp)
        · exact h
      obtain ⟨e₁, he₁⟩ := ih ⟨k, hkt, e, he⟩
      exact ⟨e₁, by simp only [collectInertias, hfx, he₁]⟩

theorem range'_one_getD (n i : Nat) (h : i < n) : (List.range' 1 n).getD i 0 = 1 + i := by
  rw [List.getD_eq_getElem _ _ (by simpa using h)]
  simp [List.getElem_range']

theorem chooseK_bounds (I : List ℚ) (n : Nat) (h2 : 2 ≤ n) (hlen : I.length = n) :
    1 ≤ chooseKFromInertias I (List.range' 1 n) ∧
      chooseKFromInertias I (List.range' 1 n) ≤ n := by
  unfold chooseKFromInertias
  by_cases h : I.length < 3
  · simp only [h, if_true]
    omega
  · simp only [h, if_false]
    have hlen' : (List.range' 1 n).length = n := by simp
    set e := min (npArgmax (npDiff (npDiff (I.map fun x =>
      (x - I.min?.getD 0) / (I.max?.getD 0 - I.min?.getD 0 + 1 / 10000000000)))) + 2)
      ((List.range' 1 n).length - 1) with he
    have hebound : e < n := by
      have : e ≤ (List.range' 1 n).length - 1 := min_le_right _ _
      omega
    rw [range'_one_getD n e hebound]
    omega

theorem determine_ok_bounds (inertia : List (List ℚ) → Nat → Except String ℚ)
    (vectors : List (List ℚ)) (maxC : Int)
    (hok : ∀ k, ∃ i, inertia vectors k = .ok i) :
    1 ≤ determine_optimal_clusters inertia vectors maxC ∧
      (determine_optimal_clusters inertia vectors maxC = 1 ∨
        (determine_optimal_clusters inertia vectors maxC : Int) ≤
          min maxC ((vectors.length : Int) - 1)) := by
  unfold determine_optimal_clusters
  set M := min maxC ((vectors.length : Int) - 1) with hM
  clear_value M
  clear hM
  by_cases hm : M < 2
  · simp only [hm, if_true]
    exact ⟨le_rfl, Or.inl (by trivial)⟩
  · simp only [hm, if_false]
    obtain ⟨bs, hbs, hblen⟩ :=
      collectInertias_ok_of_forall inertia vectors (List.range' 1 M.toNat)
        (fun a _ => hok a)
    rw [hbs]
    have hlen2 : bs.length = M.toNat := by rw [hblen]; simp
    have hM2 : 2 ≤ M := not_lt.mp hm
    have h2 : 2 ≤ M.toNat := by omega
    obtain ⟨hb1, hb2⟩ := chooseK_bounds bs _ h2 hlen2
    have hMM : ((M.toNat : Int)) = M := Int.toNat_of_nonneg (by omega)
    refine ⟨hb1, Or.inr ?_⟩
    rw [← hMM]
    exact_mod_cast hb2

/-! ## Claim C3: the failure fallback of `determine_optimal_clusters` -/

/-- **C3, counterexample.**  The claim says the failure fallback is
`max(1, min(5, n // 10))`; at `n = 5` vectors and a failing fit the source
returns `min(5, 5 // 10) = 0`, not `1`. -/
theorem C3_counterexample :
    determine_optimal_clusters failingInertia vecs5 15 ≠ max 1 (min 5 (vecs5.length / 10)) := by
  decide

/-- **C3, amended.**  If the elbow search is entered (`effective_max ≥ 2`)
and some fit in the searched range fails, `determine_optimal_clusters`
returns `min(5, n // 10)` — without the `max(1, ·)` guard the claim
states, so the result is `0` whenever `n < 10`. -/
theorem C3_amended (inertia : List (List ℚ) → Nat → Except String ℚ)
    (vectors : List (List ℚ)) (maxC : Int)
    (h2 : ¬ min maxC ((vectors.length : Int) - 1) < 2)
    (hfail : ∃ k ∈ List.range' 1 (min maxC ((vectors.length : Int) - 1)).toNat,
      ∃ e, inertia vectors k = .error e) :
    determine_optimal_clusters inertia vectors maxC = min 5 (vectors.length / 10) := by
  unfold determine_optimal_clusters
  simp only [h2, if_false]
  obtain ⟨e, he⟩ := collectInertias_error_of_exists inertia vectors _ hfail
  rw [he]

/-- **C3, witness** for the amended theorem at `n = 5`, `max_clusters = 15`,
a fit that always fails. -/
theorem C3_witness :
    (¬ min (15 : Int) ((vecs5.length : Int) - 1) < 2) ∧
      determine_optimal_clusters failingInertia vecs5 15 = min 5 (vecs5.length / 10) :=
  ⟨by decide,
    C3_amended failingInertia vecs5 15 (by decide)
      ⟨1, by decide, "MiniBatchKMeans unavailable", rfl⟩⟩

/-! ## Claim C5: range of the selected cluster count -/

/-- **C5, counterexample.**  With `n = 5` vectored events and a failing fit
the failure-fallback branch returns `0`, violating the claimed lower bound
`1 ≤ k`. -/
theorem C5_counterexample : ¬ 1 ≤ determine_optimal_clusters failingInertia vecs5 10 := by
  decide

/-- **C5, amended.**  For `n ≥ 5` vectored events, `max_clusters ≥ 2`, and
fits that do not fail, the selected `k` satisfies
`1 ≤ k ≤ min(max_clusters, n - 1)` (the claim's inclusion of the
failure-fallback branch is what the counterexample refutes; `max_clusters = 0`
would also break the upper bound on the non-failure path). -/
theorem C5_amended (inertia : List (List ℚ) → Nat → Except String ℚ)
    (vectors : List (List ℚ)) (maxC : Int)
    (h5 : 5 ≤ vectors.length) (h2 : 2 ≤ maxC)
    (hok : ∀ k, ∃ i, inertia vectors k = .ok i) :
    1 ≤ determine_optimal_clusters inertia vectors maxC ∧
      (determine_optimal_clusters inertia vectors maxC : Int) ≤
        min maxC ((vectors.length : Int) - 1) := by
  have h := determine_ok_bounds inertia vectors maxC hok
  have hM : 2 ≤ min maxC ((vectors.length : Int) - 1) :=
    le_min h2 (by omega)
  set M := min maxC ((vectors.length : Int) - 1) with hMdef
  clear_value M
  clear hMdef
  omega

/-- **C5, witness** for the amended theorem at `n = 5`, `max_clusters = 15`,
the fixture inertia curve. -/
theorem C5_witness :
    (5 ≤ vecs5.length ∧ (2 : Int) ≤ 15) ∧
      1 ≤ determine_optimal_clusters fixtureInertia vecs5 15 ∧
        (determine_optimal_clusters fixtureInertia vecs5 15 : Int) ≤
          min 15 ((vecs5.length : Int) - 1) :=
  ⟨⟨by decide, by decide⟩,
    C5_amended fixtureInertia vecs5 15 (by decide) (by decide) (fun _ => ⟨_, rfl⟩)⟩

/-! ## Claim C4: the elbow-index formula -/

theorem npDiff_map_mul (l : List ℚ) (s : ℚ) :
    npDiff (l.map (fun x => x * s)) = (npDiff l).map (fun x => x * s) := by
  unfold npDiff
  rw [← List.map_tail, List.zipWith_map, List.map_zipWith]
  congr 1
  funext a b
  ring

theorem npDiff_map_sub (l : List ℚ) (c : ℚ) :
    npDiff (l.map (fun x => x - c)) = npDiff l := by
  unfold npDiff
  rw [← List.map_tail, List.zipWith_map]
  congr 1
  funext a b
  ring

theorem npArgmaxAux_map_mul_pos (s : ℚ) (hs : 0 < s) :
    ∀ (xs : List ℚ) (b : ℚ) (bi i : Nat),
      npArgmaxAux (b * s) bi i (xs.map (fun x => x * s)) = npArgmaxAux b bi i xs := by
  intro xs
  induction xs with
  | nil => intro b bi i; rfl
  | cons x t ih =>
    intro b bi i
    simp only [List.map_cons, npArgmaxAux]
    by_cases h : b < x
    · rw [if_pos ((mul_lt_mul_right hs).mpr h), if_pos h, ih]
    · rw [if_neg (fun hc => h ((mul_lt_mul_right hs).mp hc)), if_neg h, ih]

theorem npArgmax_map_mul_pos (l : List ℚ) (s : ℚ) (hs : 0 < s) :
    npArgmax (l.map (fun x => x * s)) = npArgmax l := by
  cases l with
  | nil => rfl
  | cons x t =>
    simp only [List.map_cons, npArgmax]
    exact npArgmaxAux_map_mul_pos s hs t x 0 1

/-- The elbow index is invariant under replacing the source's
`(x - min) / (max - min + 1e-10)` normalization by the claim's pure
min-max normalization: both are the same affine map up to a positive scale
factor (and when `max = min` both collapse to the all-zero list, the spec
side because `x / 0 = 0` in `ℚ`). -/
theorem npArgmax_secondDiff_normalize (I : List ℚ) (h3 : ¬ I.length < 3) :
    npArgmax (npDiff (npDiff (I.map (fun x =>
        (x - I.min?.getD 0) / (I.max?.getD 0 - I.min?.getD 0 + 1 / 10000000000))))) =
      npArgmax (npDiff (npDiff (minMaxNormalizeSpec I))) := by
  have hne : I ≠ [] := by
    intro h
    rw [h] at h3
    exact h3 (by simp)
  obtain ⟨mn, hmn⟩ : ∃ a, I.min? = some a := by
    cases h : I.min? with
    | none => exact absurd (List.min?_eq_none_iff.mp h) hne
    | some a => exact ⟨a, rfl⟩
  obtain ⟨mx, hmx⟩ : ∃ a, I.max? = some a := by
    cases h : I.max? with
    | none => exact absurd (List.max?_eq_none_iff.mp h) hne
    | some a => exact ⟨a, rfl⟩
  have hmn_le : ∀ x ∈ I, mn ≤ x :=
    (List.le_min?_iff (fun _ _ _ => le_min_iff) hmn).mp le_rfl
  have hle_mx : ∀ x ∈ I, x ≤ mx :=
    (List.max?_le_iff (fun _ _ _ => max_le_iff) hmx).mp le_rfl
  have hmem_mn : mn ∈ I := List.min?_mem (fun a b => min_choice a b) hmn
  have hmnmx : mn ≤ mx := hle_mx mn hmem_mn
  simp only [hmn, hmx, minMaxNormalizeSpec, Option.getD_some]
  rcases eq_or_lt_of_le hmnmx with heq | hlt
  · -- all entries equal: both normalizations are the zero list
    have hall : ∀ x ∈ I, x = mn := fun x hx => le_antisymm (heq ▸ hle_mx x hx) (hmn_le x hx)
    have h1 : I.map (fun x => (x - mn) / (mx - mn + 1 / 10000000000)) =
        I.map (fun _ => (0 : ℚ)) := by
      apply List.map_congr_left
      intro x hx
      rw [hall x hx]
      simp
    have h2 : I.map (fun x => (x - mn) / (mx - mn)) = I.map (fun _ => (0 : ℚ)) := by
      apply List.map_congr_left
      intro x hx
      rw [hall x hx]
      simp
    rw [h1, h2]
  · -- genuinely spread data: the two normalizations differ by a positive scale
    have hd : 0 < mx - mn := by linarith
    have hdε : 0 < mx - mn + 1 / 10000000000 := by linarith
    have hs : 0 < (mx - mn + 1 / 10000000000)⁻¹ := inv_pos.mpr hdε
    have hs' : 0 < (mx - mn)⁻¹ := inv_pos.mpr hd
    have hrw : ∀ (D : ℚ), I.map (fun x => (x - mn) / D) =
        (I.map (fun x => x - mn)).map (fun x => x * D⁻¹) := by
      intro D
      rw [List.map_map]
      apply List.map_congr_left
      intro x _
      simp [div_eq_mul_inv]
    have L : npArgmax (npDiff (npDiff (I.map (fun x =>
        (x - mn) / (mx - mn + 1 / 10000000000))))) = npArgmax (npDiff (npDiff I)) := by
      rw [hrw, npDiff_map_mul, npDiff_map_mul, npDiff_map_sub, npArgmax_map_mul_pos _ _ hs]
    have R : npArgmax (npDiff (npDiff (I.map (fun x =>
        (x - mn) / (mx - mn))))) = npArgmax (npDiff (npDiff I)) := by
      rw [hrw, npDiff_map_mul, npDiff_map_mul, npDiff_map_sub, npArgmax_map_mul_pos _ _ hs']
    rw [L, R]

/-- **C4.**  On an `n`-row matrix with `effective_max = min(max_clusters,
n-1) ≥ 2` and fits recording the inertia list `I`: with fewer than 3 inertia
samples the result is `effective_max`; otherwise it is
`k_values[min(argmax(second differences of first differences of the
min-max-normalized inertia sequence) + 2, len(k_values) - 1)]` with
`k_values = [1..effective_max]` (the claim's normalization omits the
source's `+1e-10` regularizer; the elbow index is invariant under that
difference). -/
theorem C4_elbow_formula (inertia : List (List ℚ) → Nat → Except String ℚ)
    (vectors : List (List ℚ)) (maxC : Int) (I : List ℚ)
    (h2 : ¬ min maxC ((vectors.length : Int) - 1) < 2)
    (hok : collectInertias inertia vectors
        (List.range' 1 (min maxC ((vectors.length : Int) - 1)).toNat) = .ok I) :
    determine_optimal_clusters inertia vectors maxC =
      if I.length < 3 then (min maxC ((vectors.length : Int) - 1)).toNat
      else
        (List.range' 1 (min maxC ((vectors.length : Int) - 1)).toNat).getD
          (min (npArgmax (npDiff (npDiff (minMaxNormalizeSpec I))) + 2)
            ((min maxC ((vectors.length : Int) - 1)).toNat - 1)) 0 := by
  have hlen : I.length = (min maxC ((vectors.length : Int) - 1)).toNat := by
    rw [collectInertias_ok_length inertia vectors _ I hok]
    simp
  unfold determine_optimal_clusters
  rw [if_neg h2, hok]
  show chooseKFromInertias I (List.range' 1 (min maxC ((vectors.length : Int) - 1)).toNat) = _
  unfold chooseKFromInertias
  by_cases h3 : I.length < 3
  · rw [if_pos h3, if_pos h3]
    exact hlen
  · rw [if_neg h3, if_neg h3]
    simp only [npArgmax_secondDiff_normalize I h3, List.length_range']

/-- **C4, witness**: the fixture inertia curve `[10, 4, 2, 1]` over five
vectors with `max_clusters = 15` (`effective_max = 4`). -/
theorem C4_witness :
    (¬ min (15 : Int) ((vecs5.length : Int) - 1) < 2) ∧
      determine_optimal_clusters fixtureInertia vecs5 15 =
        if ([(10 : ℚ), 4, 2, 1]).length < 3 then (min (15 : Int) ((vecs5.length : Int) - 1)).toNat
        else
          (List.range' 1 (min (15 : Int) ((vecs5.length : Int) - 1)).toNat).getD
            (min (npArgmax (npDiff (npDiff (minMaxNormalizeSpec [10, 4, 2, 1]))) + 2)
              ((min (15 : Int) ((vecs5.length : Int) - 1)).toNat - 1)) 0 :=
  ⟨by decide, C4_elbow_formula fixtureInertia vecs5 15 [10, 4, 2, 1] (by decide) rfl⟩

/-! ## Characterizations of `run_daily_analytics` -/

theorem run_insufficient_char (db : List Event) (m : MiniBatchKMeansModel)
    (g : List String → String) (pid : String) (nc : Option Nat) (ad : Bool)
    (h5 : (db.filter (fun e => e.etype == "chat")).length < 5) :
    run_daily_analytics db m g pid nc ad =
      .ok (.insufficient (db.filter (fun e => e.etype == "chat")).length
        "Need at least 5 queries to generate analytics", false) := by
  simp only [run_daily_analytics]
  rw [if_pos h5]

theorem run_error_char (db : List Event) (m : MiniBatchKMeansModel)
    (g : List String → String) (pid : String) (nc : Option Nat) (ad : Bool) (e : String)
    (h5 : ¬ (db.filter (fun e => e.etype == "chat")).length < 5)
    (hperf : _perform_clustering m
        (_extract_vectors (db.filter (fun e => e.etype == "chat"))).1
        (selectedK db m nc ad) = .error e) :
    run_daily_analytics db m g pid nc ad = .error e := by
  simp only [run_daily_analytics]
  rw [if_neg h5, hperf]

theorem run_complete_char (db : List Event) (m : MiniBatchKMeansModel)
    (g : List String → String) (pid : String) (nc : Option Nat) (ad : Bool)
    (labels : List Nat) (centers : List (List ℚ))
    (h5 : ¬ (db.filter (fun e => e.etype == "chat")).length < 5)
    (hperf : _perform_clustering m
        (_extract_vectors (db.filter (fun e => e.etype == "chat"))).1
        (selectedK db m nc ad) = .ok (labels, centers)) :
    run_daily_analytics db m g pid nc ad =
      .ok (.complete
        { playground_id := pid
          total_queries := (db.filter (fun e => e.etype == "chat")).length
          num_clusters :=
            ((clusterPairs db g
                (_extract_vectors (db.filter (fun e => e.etype == "chat"))).1
                (_extract_vectors (db.filter (fun e => e.etype == "chat"))).2
                labels centers (selectedK db m nc ad)).foldl dictInsert []).length
          optimal_clusters := selectedK db m nc ad
          auto_detected := ad
          clusters :=
            (clusterPairs db g
                (_extract_vectors (db.filter (fun e => e.etype == "chat"))).1
                (_extract_vectors (db.filter (fun e => e.etype == "chat"))).2
                labels centers (selectedK db m nc ad)).foldl dictInsert [] }, true) := by
  simp only [run_daily_analytics]
  rw [if_neg h5, hperf]

/-! ## Claim C8: the minimum viable sample boundary -/

/-- **C8, counterexample.**  Exactly five chat events, none with an
embedding: the run raises (clustering of the empty matrix fails) instead of
producing the `Complete` persisted report the claim promises for every
5-event input. -/
theorem C8_counterexample :
    run_daily_analytics dbNoVecB fixtureModel constLabeler "p" Option.none true =
      .error "MiniBatchKMeans: invalid input (need 1 <= n_clusters <= n_samples, n_samples >= 1)" :=
  rfl

/-- **C8, amended.**  With fewer than 5 events the run returns
`insufficient_data` carrying `total_queries` and does not reach the report
store (`saved = false`); with exactly 5 events *at least one of which has an
embedding*, auto-detection on, and inertia fits that succeed, the run
completes and the report is persisted (`saved = true`). -/
theorem C8_amended (db : List Event) (m : MiniBatchKMeansModel)
    (g : List String → String) (pid : String) (nc : Option Nat) :
    (∀ ad, (db.filter (fun e => e.etype == "chat")).length < 5 →
      run_daily_analytics db m g pid nc ad =
        .ok (.insufficient (db.filter (fun e => e.etype == "chat")).length
          "Need at least 5 queries to generate analytics", false))
    ∧ ((db.filter (fun e => e.etype == "chat")).length = 5 →
       (∃ e ∈ db.filter (fun e => e.etype == "chat"), vectorTruthy e.query_vector) →
       (∀ k, ∃ i, m.inertia (_extract_vectors (db.filter (fun e => e.etype == "chat"))).1 k
          = .ok i) →
       ∃ r, run_daily_analytics db m g pid nc true = .ok (.complete r, true)) := by
  constructor
  · exact fun ad h5 => run_insufficient_char db m g pid nc ad h5
  · intro h5 hvec hok
    obtain ⟨e₀, he₀, hte₀⟩ := hvec
    have hV1 : 1 ≤ (_extract_vectors (db.filter (fun e => e.etype == "chat"))).1.length := by
      simp only [_extract_vectors, List.length_map]
      exact List.length_pos.mpr (List.ne_nil_of_mem (List.mem_filter.mpr ⟨he₀, hte₀⟩))
    have hKb : 1 ≤ selectedK db m nc true ∧
        selectedK db m nc true ≤
          (_extract_vectors (db.filter (fun e => e.etype == "chat"))).1.length := by
      show 1 ≤ determine_optimal_clusters m.inertia _ 15 ∧
        determine_optimal_clusters m.inertia _ 15 ≤ _
      have hb := determine_ok_bounds m.inertia
        (_extract_vectors (db.filter (fun e => e.etype == "chat"))).1 15 hok
      rcases hb.2 with h1 | h2
      · exact ⟨hb.1, by omega⟩
      · have hmin : min (15 : Int)
            (((_extract_vectors (db.filter (fun e => e.etype == "chat"))).1.length : Int) - 1) ≤
            ((_extract_vectors (db.filter (fun e => e.etype == "chat"))).1.length : Int) - 1 :=
          min_le_right _ _
        exact ⟨hb.1, by omega⟩
    have hguard : _perform_clustering m
        (_extract_vectors (db.filter (fun e => e.etype == "chat"))).1
        (selectedK db m nc true) =
        .ok (m.fitPredict (_extract_vectors (db.filter (fun e => e.etype == "chat"))).1
          (selectedK db m nc true)) := by
      unfold _perform_clustering
      rw [if_neg (by omega :
        ¬ ((_extract_vectors (db.filter (fun e => e.etype == "chat"))).1.length = 0 ∨
           selectedK db m nc true = 0 ∨
           (_extract_vectors (db.filter (fun e => e.etype == "chat"))).1.length <
             selectedK db m nc true))]
    exact ⟨_, run_complete_char db m g pid nc true _ _ (by omega) (by rw [hguard])⟩

/-- **C8, witness**: four events yield `insufficient_data` unsaved; the
five vectored events of `db5` yield a persisted `Complete` report. -/
theorem C8_witness :
    (run_daily_analytics db4 fixtureModel constLabeler "p" Option.none true =
      .ok (.insufficient (db4.filter (fun e => e.etype == "chat")).length
        "Need at least 5 queries to generate analytics", false))
    ∧ ∃ r, run_daily_analytics db5 fixtureModel constLabeler "p" Option.none true =
        .ok (.complete r, true) :=
  ⟨(C8_amended db4 fixtureModel constLabeler "p" Option.none).1 true (by decide),
   (C8_amended db5 fixtureModel constLabeler "p" Option.none).2 (by decide)
     ⟨mkEvent 1 (some [0]) Option.none, by decide, by decide⟩
     (fun _ => ⟨_, rfl⟩)⟩

/-! ## Claim C1: zero events with embeddings -/

/-- **C1, code bug.**  On five chat events none of which has an embedding,
the pipeline does *not* skip clustering: `_extract_vectors` returns the
empty matrix, the elbow guard returns `k = 1` without consulting any fit,
and `_perform_clustering` is still called on the zero-row matrix, whose
input validation raises — so `run_daily_analytics` propagates an exception
instead of returning a `Complete` report with zero clusters.  This holds for
every collaborator model and labeler. -/
theorem C1_code_bug (m : MiniBatchKMeansModel) (g : List String → String) (pid : String) :
    run_daily_analytics dbNoVec5 m g pid Option.none true =
      .error "MiniBatchKMeans: invalid input (need 1 <= n_clusters <= n_samples, n_samples >= 1)" :=
  rfl

/-! ## Claim C2: caller-supplied `n_clusters` -/

/-- **C2, counterexample.**  `run_daily_analytics` only honours a supplied
`n_clusters` when `auto_detect_clusters` is off; with the default
`auto_detect_clusters=True` the elbow method runs anyway and overwrites the
supplied value: here the caller asks for `7` clusters and the report records
`optimal_clusters = 3`. -/
theorem C2_counterexample :
    (reportOf (run_daily_analytics db5 fixtureModel constLabeler "p" (some 7) true)).map
        (fun r => r.optimal_clusters) = some 3 ∧ (3 : Nat) ≠ 7 :=
  ⟨by decide, by decide⟩

/-- **C2, amended.**  When the caller supplies `n_clusters` *and disables*
`auto_detect_clusters`, the elbow-method selection is not executed (the run
is independent of the inertia oracle) and the supplied value is used as-is
as the report's `optimal_clusters`. -/
theorem C2_amended (db : List Event)
    (fit1 fit2 : List (List ℚ) → Nat → Except String ℚ)
    (fp : List (List ℚ) → Nat → List Nat × List (List ℚ))
    (g : List String → String) (pid : String) (m : Nat) :
    run_daily_analytics db ⟨fit1, fp⟩ g pid (some m) false =
        run_daily_analytics db ⟨fit2, fp⟩ g pid (some m) false
    ∧ ∀ r s, run_daily_analytics db ⟨fit1, fp⟩ g pid (some m) false = .ok (.complete r, s) →
        r.optimal_clusters = m := by
  constructor
  · rfl
  · intro r s h
    simp only [run_daily_analytics] at h
    split at h
    · exact absurd h (by simp)
    · split at h
      · exact absurd h (by simp)
      · simp only [Except.ok.injEq, Prod.mk.injEq, RunReport.complete.injEq] at h
        obtain ⟨hr, -⟩ := h
        subst hr
        rfl

/-- **C2, witness** for the amended theorem: with auto-detection off and
`n_clusters = 2` supplied, a run under a failing inertia oracle equals the
run under the fixture oracle, completes, and reports `optimal_clusters = 2`. -/
theorem C2_witness :
    (run_daily_analytics db5 ⟨failingInertia, fixtureFitPredict⟩ constLabeler "p" (some 2) false =
        run_daily_analytics db5 fixtureModel constLabeler "p" (some 2) false)
    ∧ ∃ r s, run_daily_analytics db5 ⟨failingInertia, fixtureFitPredict⟩ constLabeler "p"
          (some 2) false = .ok (.complete r, s) ∧ r.optimal_clusters = 2 :=
  ⟨(C2_amended db5 failingInertia fixtureInertia fixtureFitPredict constLabeler "p" 2).1,
    _, _, rfl,
    (C2_amended db5 failingInertia fixtureInertia fixtureFitPredict constLabeler "p" 2).2 _ _ rfl⟩

/-! ## Claim C7: label collisions in the clusters mapping -/

theorem perform_ok_inv (m : MiniBatchKMeansModel) (vectors : List (List ℚ)) (k : Nat)
    (labels : List Nat) (centers : List (List ℚ))
    (h : _perform_clustering m vectors k = .ok (labels, centers)) :
    m.fitPredict vectors k = (labels, centers) := by
  unfold _perform_clustering at h
  split at h
  · exact absurd h (by simp)
  · injection h

/-- Every completing run's `clusters` mapping is the label-keyed dict fold
of the ordered `(label, summary)` pairs of its non-empty clusters. -/
theorem run_clusters_eq (db : List Event) (m : MiniBatchKMeansModel)
    (g : List String → String) (pid : String) (nc : Option Nat) (ad : Bool)
    (r : CompleteReport) (s : Bool)
    (hrun : run_daily_analytics db m g pid nc ad = .ok (.complete r, s)) :
    r.clusters = (pipelinePairs db m g nc ad).foldl dictInsert [] := by
  by_cases h5 : (db.filter (fun e => e.etype == "chat")).length < 5
  · rw [run_insufficient_char db m g pid nc ad h5] at hrun
    exact absurd hrun (by simp)
  · cases hperf : _perform_clustering m
        (_extract_vectors (db.filter (fun e => e.etype == "chat"))).1
        (selectedK db m nc ad) with
    | error e =>
      rw [run_error_char db m g pid nc ad e h5 hperf] at hrun
      exact absurd hrun (by simp)
    | ok lc =>
      obtain ⟨labels, centers⟩ := lc
      rw [run_complete_char db m g pid nc ad labels centers h5 hperf] at hrun
      simp only [Except.ok.injEq, Prod.mk.injEq, RunReport.complete.injEq] at hrun
      obtain ⟨hr, -⟩ := hrun
      have hfit := perform_ok_inv m _ _ labels centers hperf
      rw [← hr]
      simp only [pipelinePairs, hfit]

theorem dictInsert_filter_pos (d : List (String × ClusterSummary))
    (kv : String × ClusterSummary) (ℓ : String)
    (hlen : (d.filter (fun p => p.1 == ℓ)).length ≤ 1) (hbeq : (kv.1 == ℓ) = true) :
    (dictInsert d kv).filter (fun p => p.1 == ℓ) = [kv] := by
  have hk : kv.1 = ℓ := eq_of_beq hbeq
  subst hk
  unfold dictInsert
  by_cases hany : d.any (fun p => p.1 == kv.1)
  · rw [if_pos hany, List.filter_map]
    have hcongr : d.filter ((fun p => p.1 == kv.1) ∘ (fun p => if p.1 == kv.1 then kv else p)) =
        d.filter (fun p => p.1 == kv.1) := by
      apply List.filter_congr
      intro p _
      by_cases hb : (p.1 == kv.1) = true
      · simp [Function.comp, hb]
      · simp [Function.comp, hb]
    rw [hcongr]
    obtain ⟨x, hx, hxk⟩ := List.any_eq_true.mp hany
    have hne : d.filter (fun p => p.1 == kv.1) ≠ [] := by
      intro hnil
      have := List.filter_eq_nil_iff.mp hnil x hx
      exact this hxk
    have h1 : (d.filter (fun p => p.1 == kv.1)).length = 1 := by
      have := List.length_pos.mpr hne
      omega
    obtain ⟨a, ha⟩ := List.length_eq_one.mp h1
    have hak : (a.1 == kv.1) = true := by
      have : a ∈ d.filter (fun p => p.1 == kv.1) := by rw [ha]; exact List.mem_singleton_self a
      exact (List.mem_filter.mp this).2
    rw [ha]
    simp only [List.map_cons, List.map_nil]
    rw [if_pos hak]
  · rw [if_neg hany, List.filter_append]
    have hnil : d.filter (fun p => p.1 == kv.1) = [] := by
      rw [List.filter_eq_nil_iff]
      intro x hx hxk
      exact hany (List.any_eq_true.mpr ⟨x, hx, hxk⟩)
    simp [hnil]

theorem dictInsert_filter_neg (d : List (String × ClusterSummary))
    (kv : String × ClusterSummary) (ℓ : String) (hbeq : (kv.1 == ℓ) = false) :
    (dictInsert d kv).filter (fun p => p.1 == ℓ) = d.filter (fun p => p.1 == ℓ) := by
  unfold dictInsert
  by_cases hany : d.any (fun p => p.1 == kv.1)
  · rw [if_pos hany, List.filter_map]
    have hcongr : d.filter ((fun p => p.1 == ℓ) ∘ (fun p => if p.1 == kv.1 then kv else p)) =
        d.filter (fun p => p.1 == ℓ) := by
      apply List.filter_congr
      intro p _
      by_cases hb : (p.1 == kv.1) = true
      · have : (p.1 == ℓ) = false := by
          have hpk : p.1 = kv.1 := eq_of_beq hb
          rw [hpk]
          exact hbeq
        simp [Function.comp, hb, hbeq, this]
      · simp [Function.comp, hb]
    rw [hcongr]
    have : ∀ x ∈ d.filter (fun p => p.1 == ℓ), (fun p => if p.1 == kv.1 then kv else p) x = x := by
      intro x hx
      have hxl : (x.1 == ℓ) = true := (List.mem_filter.mp hx).2
      have hxk : (x.1 == kv.1) = false := by
        have hxe : x.1 = ℓ := eq_of_beq hxl
        rw [hxe]
        cases hkk : (ℓ == kv.1) with
        | false => rfl
        | true =>
          have : ℓ = kv.1 := eq_of_beq hkk
          rw [this] at hbeq
          simp at hbeq
      simp [hxk]
    rw [List.map_congr_left this, List.map_id']
  · rw [if_neg hany, List.filter_append]
    simp [hbeq]

theorem foldl_dictInsert_filter (ℓ : String) :
    ∀ (pairs d : List (String × ClusterSummary)),
      (d.filter (fun p => p.1 == ℓ)).length ≤ 1 →
      ((pairs.foldl dictInsert d).filter (fun p => p.1 == ℓ)) =
        ((pairs.filter (fun p => p.1 == ℓ)).getLast?).elim
          (d.filter (fun p => p.1 == ℓ)) (fun kv => [kv]) := by
  intro pairs
  induction pairs with
  | nil => intro d hd; simp
  | cons p t ih =>
    intro d hd
    rw [List.foldl_cons]
    cases hbeq : (p.1 == ℓ) with
    | true =>
      have hfp : (dictInsert d p).filter (fun p' => p'.1 == ℓ) = [p] :=
        dictInsert_filter_pos d p ℓ hd hbeq
      rw [ih (dictInsert d p) (by rw [hfp]; simp), hfp,
        List.filter_cons_of_pos (by simpa using hbeq)]
      cases htf : t.filter (fun p' => p'.1 == ℓ) with
      | nil => simp
      | cons a l =>
        rw [List.getLast?_cons_cons]
        obtain ⟨x, hx⟩ : ∃ x, (a :: l).getLast? = some x := by
          cases hgl : (a :: l).getLast? with
          | none => exact absurd (List.getLast?_eq_none_iff.mp hgl) (by simp)
          | some x => exact ⟨x, rfl⟩
        rw [hx]
        simp
    | false =>
      have hfn : (dictInsert d p).filter (fun p' => p'.1 == ℓ) =
          d.filter (fun p' => p'.1 == ℓ) :=
        dictInsert_filter_neg d p ℓ hbeq
      rw [ih (dictInsert d p) (by rw [hfn]; exact hd), hfn,
        List.filter_cons_of_neg (by simp [hbeq])]

/-- **C7.**  If exactly two distinct non-empty clusters — ordinals `i < j`,
summaries `si` and `sj` — receive the identical label `ℓ`, the completed
report's `clusters` mapping contains a single entry for `ℓ` and its value is
`sj`, the summary of the later-processed cluster; `si` is silently lost.
The hypothesis states "exactly two clusters got label `ℓ`" as: the ordered
pair list of the run filtered to label `ℓ` is `[(ℓ, si), (ℓ, sj)]`. -/
theorem C7_label_collision (db : List Event) (m : MiniBatchKMeansModel)
    (g : List String → String) (pid : String) (nc : Option Nat) (ad : Bool)
    (r : CompleteReport) (s : Bool) (ℓ : String) (si sj : ClusterSummary)
    (hrun : run_daily_analytics db m g pid nc ad = .ok (.complete r, s))
    (htwo : (pipelinePairs db m g nc ad).filter (fun p => p.1 == ℓ) = [(ℓ, si), (ℓ, sj)]) :
    r.clusters.filter (fun p => p.1 == ℓ) = [(ℓ, sj)] := by
  have hcl : r.clusters = (pipelinePairs db m g nc ad).foldl dictInsert [] :=
    run_clusters_eq db m g pid nc ad r s hrun
  rw [hcl, foldl_dictInsert_filter ℓ _ [] (by simp), htwo]
  rfl

/-- **C7, witness**: `db5` split into two clusters (`i % 2`), a labeler that
answers the same label for both; the report keeps only the later cluster's
summary. -/
theorem C7_witness :
    ∃ r si sj,
      run_daily_analytics db5 fixtureModel constLabeler "p" (some 2) false =
          .ok (.complete r, true)
        ∧ (pipelinePairs db5 fixtureModel constLabeler (some 2) false).filter
            (fun p => p.1 == "Course Questions") =
            [("Course Questions", si), ("Course Questions", sj)]
        ∧ r.clusters.filter (fun p => p.1 == "Course Questions") = [("Course Questions", sj)] :=
  ⟨_, _, _, rfl, rfl,
    C7_label_collision db5 fixtureModel constLabeler "p" (some 2) false _ true
      "Course Questions" _ _ rfl rfl⟩

/-! ## Claim C10: default cluster count -/

/-- **C10.**  With `auto_detect_clusters` disabled and no `n_clusters`
supplied, every completing run clusters with the default `k = 5`, reflected
in the report's `optimal_clusters`. -/
theorem C10_default_k (db : List Event) (m : MiniBatchKMeansModel)
    (g : List String → String) (pid : String) :
    ∀ r s, run_daily_analytics db m g pid Option.none false = .ok (.complete r, s) →
      r.optimal_clusters = 5 := by
  intro r s h
  simp only [run_daily_analytics] at h
  split at h
  · exact absurd h (by simp)
  · split at h
    · exact absurd h (by simp)
    · simp only [Except.ok.injEq, Prod.mk.injEq, RunReport.complete.injEq] at h
      obtain ⟨hr, -⟩ := h
      subst hr
      rfl

/-- **C10, witness**: a concrete run with five vectored events completes
with `optimal_clusters = 5`. -/
theorem C10_witness :
    ∃ r s, run_daily_analytics db5 fixtureModel constLabeler "p" Option.none false =
        .ok (.complete r, s) ∧ r.optimal_clusters = 5 :=
  ⟨_, _, rfl, C10_default_k db5 fixtureModel constLabeler "p" _ _ rfl⟩

/-! ## Claim C9: sample ordering through the batched hydration -/

/-- **C9, code bug.**  One cluster of five members with centroid `[4]`: the
members sorted by distance to the centroid are `d5, d4, d3, d2, d1`, so the
claim (and §4.4/§8 of the spec, and the source's own comments at lines 223,
231 and 234) promise `sample_queries = [q5, q4, q3]`.  But the batched
`__name__ in […]` hydration returns each ≤10-id batch in the event store's
document order, not in the requested distance order, so the report actually
contains `[q1, q2, q3]` — the three members *farthest* from the centroid
here. -/
theorem C9_code_bug :
    (∃ r, run_daily_analytics db5 fixtureModelFar constLabeler "p" (some 1) false =
        .ok (.complete r, true)
      ∧ r.clusters = [("Course Questions",
          { count := 5, sample_queries := ["q1", "q2", "q3"],
            good := 1, bad := 1, «none» := 3 })])
    ∧ (claimDistanceOrderedTexts db5 [4]).take 3 = ["q5", "q4", "q3"]
    ∧ (["q1", "q2", "q3"] : List String) ≠ ["q5", "q4", "q3"] :=
  ⟨⟨_, rfl, rfl⟩, by decide, by decide⟩

/-! ## Claim C6: rating tallies -/

theorem countP_or_disjoint {α : Type} (p q : α → Bool) :
    ∀ (l : List α), (∀ a ∈ l, ¬(p a = true ∧ q a = true)) →
      l.countP (fun a => p a || q a) = l.countP p + l.countP q := by
  intro l
  induction l with
  | nil => intro _; simp
  | cons a t ih =>
    intro h
    simp only [List.countP_cons]
    rw [ih (fun x hx => h x (List.mem_cons_of_mem a hx))]
    have := h a (List.mem_cons_self a t)
    cases hp : p a <;> cases hq : q a <;> simp_all <;> omega

theorem countP_docid_one (x : String) :
    ∀ (db : List Event), (db.map (fun e => e.doc_id)).Nodup →
      x ∈ db.map (fun e => e.doc_id) →
      db.countP (fun e => e.doc_id == x) = 1 := by
  intro db
  induction db with
  | nil => intro _ hx; exact absurd hx (by simp)
  | cons e t ih =>
    intro hnd hx
    simp only [List.map_cons, List.nodup_cons] at hnd
    simp only [List.countP_cons]
    rcases List.mem_cons.mp hx with heq | hmem
    · have hz : t.countP (fun e' => e'.doc_id == x) = 0 := by
        rw [List.countP_eq_zero]
        intro a ha hax
        apply hnd.1
        have heq2 : x = e.doc_id := heq
        have hax' : a.doc_id = x := eq_of_beq hax
        rw [← heq2, ← hax']
        exact List.mem_map_of_mem (fun e' => e'.doc_id) ha
      rw [hz]
      simp [← heq]
    · have hne : (e.doc_id == x) = false := by
        cases hb : (e.doc_id == x) with
        | false => rfl
        | true => exact absurd ((eq_of_beq hb) ▸ hmem) hnd.1
      rw [ih hnd.2 hmem, hne]
      simp

theorem countP_contains_batch (db : List Event) (hdb : (db.map (fun e => e.doc_id)).Nodup) :
    ∀ (b : List String), b.Nodup → (∀ x ∈ b, x ∈ db.map (fun e => e.doc_id)) →
      db.countP (fun e => b.contains e.doc_id) = b.length := by
  intro b
  induction b with
  | nil =>
    intro _ _
    simp [List.countP_eq_zero]
  | cons x t ih =>
    intro hnd hsub
    simp only [List.nodup_cons] at hnd
    have hsplit : db.countP (fun e => (x :: t).contains e.doc_id) =
        db.countP (fun e => (e.doc_id == x) || t.contains e.doc_id) := by
      apply List.countP_congr
      intro e _
      simp [List.contains_cons]
    have hdisj : ∀ e ∈ db, ¬((e.doc_id == x) = true ∧ (t.contains e.doc_id) = true) := by
      rintro e _ ⟨h1, h2⟩
      have hex : e.doc_id = x := eq_of_beq h1
      rw [hex] at h2
      exact hnd.1 (List.elem_iff.mp h2)
    rw [hsplit, countP_or_disjoint _ _ db hdisj,
      countP_docid_one x db hdb (hsub x (List.mem_cons_self x t)),
      ih hnd.2 (fun y hy => hsub y (List.mem_cons_of_mem x hy))]
    simp [Nat.add_comm]

theorem chunked10Fuel_congr :
    ∀ (f₁ f₂ : Nat) (l : List α), l.length ≤ f₁ → l.length ≤ f₂ →
      chunked10Fuel f₁ l = chunked10Fuel f₂ l := by
  intro f₁
  induction f₁ with
  | zero =>
    intro f₂ l h1 _
    have : l = [] := List.length_eq_zero.mp (by omega)
    subst this
    cases f₂ <;> rfl
  | succ n ih =>
    intro f₂ l h1 h2
    cases l with
    | nil => cases f₂ <;> rfl
    | cons x xs =>
      cases f₂ with
      | zero => simp at h2
      | succ m =>
        show ((x :: xs).take 10) :: chunked10Fuel n ((x :: xs).drop 10) =
          ((x :: xs).take 10) :: chunked10Fuel m ((x :: xs).drop 10)
        have h1' : xs.length + 1 ≤ n + 1 := by simpa using h1
        have h2' : xs.length + 1 ≤ m + 1 := by simpa using h2
        congr 1
        apply ih
        · simp only [List.length_drop, List.length_cons]
          omega
        · simp only [List.length_drop, List.length_cons]
          omega

theorem chunked10_cons (x : α) (xs : List α) :
    chunked10 (x :: xs) =
      ((x :: xs).take 10) :: chunked10 ((x :: xs).drop 10) := by
  show ((x :: xs).take 10) :: chunked10Fuel xs.length ((x :: xs).drop 10) =
    ((x :: xs).take 10) :: chunked10Fuel ((x :: xs).drop 10).length ((x :: xs).drop 10)
  congr 1
  apply chunked10Fuel_congr
  · simp only [List.length_drop, List.length_cons]
    omega
  · exact le_rfl

theorem hydrate_mem (db : List Event) (ids : List String) (e : Event)
    (he : e ∈ get_analytics_events_by_ids db ids) : e ∈ db := by
  unfold get_analytics_events_by_ids at he
  obtain ⟨b, -, hb⟩ := List.mem_flatMap.mp he
  exact (List.mem_filter.mp hb).1

theorem hydrate_length_aux (db : List Event) (hdb : (db.map (fun e => e.doc_id)).Nodup) :
    ∀ (n : Nat) (ids : List String), ids.length ≤ n → ids.Nodup →
      (∀ x ∈ ids, x ∈ db.map (fun e => e.doc_id)) →
      (get_analytics_events_by_ids db ids).length = ids.length := by
  intro n
  induction n with
  | zero =>
    intro ids hn _ _
    have : ids = [] := List.length_eq_zero.mp (by omega)
    subst this
    rfl
  | succ n ih =>
    intro ids hn hnd hsub
    cases ids with
    | nil => rfl
    | cons x xs =>
      have hgeq : get_analytics_events_by_ids db (x :: xs) =
          db.filter (fun e => ((x :: xs).take 10).contains e.doc_id) ++
            get_analytics_events_by_ids db ((x :: xs).drop 10) := by
        unfold get_analytics_events_by_ids
        rw [chunked10_cons]
        rfl
      rw [hgeq, List.length_append]
      have htake_nd : ((x :: xs).take 10).Nodup := hnd.sublist (List.take_sublist 10 _)
      have hdrop_nd : ((x :: xs).drop 10).Nodup := hnd.sublist (List.drop_sublist 10 _)
      have htake_sub : ∀ y ∈ (x :: xs).take 10, y ∈ db.map (fun e => e.doc_id) :=
        fun y hy => hsub y (List.mem_of_mem_take hy)
      have hdrop_sub : ∀ y ∈ (x :: xs).drop 10, y ∈ db.map (fun e => e.doc_id) :=
        fun y hy => hsub y (List.mem_of_mem_drop hy)
      have h1 : (db.filter (fun e => ((x :: xs).take 10).contains e.doc_id)).length =
          ((x :: xs).take 10).length := by
        rw [← List.countP_eq_length_filter]
        exact countP_contains_batch db hdb _ htake_nd htake_sub
      have hn' : xs.length + 1 ≤ n + 1 := by simpa using hn
      have h2 : (get_analytics_events_by_ids db ((x :: xs).drop 10)).length =
          ((x :: xs).drop 10).length := by
        apply ih _ _ hdrop_nd hdrop_sub
        simp only [List.length_drop, List.length_cons]
        omega
      rw [h1, h2]
      simp only [List.length_take, List.length_drop, List.length_cons]
      omega

theorem hydrate_length (db : List Event) (ids : List String)
    (hdb : (db.map (fun e => e.doc_id)).Nodup) (hnd : ids.Nodup)
    (hsub : ∀ x ∈ ids, x ∈ db.map (fun e => e.doc_id)) :
    (get_analytics_events_by_ids db ids).length = ids.length :=
  hydrate_length_aux db hdb ids.length ids le_rfl hnd hsub

theorem countP_three_partition (p q rr : Event → Bool) :
    ∀ (l : List Event),
      (∀ x ∈ l, (p x = true ∧ q x = false ∧ rr x = false) ∨
        (p x = false ∧ q x = true ∧ rr x = false) ∨
        (p x = false ∧ q x = false ∧ rr x = true)) →
      l.countP p + l.countP q + l.countP rr = l.length := by
  intro l
  induction l with
  | nil => intro _; simp
  | cons a t ih =>
    intro h
    simp only [List.countP_cons, List.length_cons]
    rw [show t.countP p + (if p a then 1 else 0) + (t.countP q + (if q a then 1 else 0)) +
        (t.countP rr + (if rr a then 1 else 0)) =
        t.countP p + t.countP q + t.countP rr +
          ((if p a then 1 else 0) + (if q a then 1 else 0) + (if rr a then 1 else 0)) by omega]
    rw [ih (fun x hx => h x (List.mem_cons_of_mem a hx))]
    rcases h a (List.mem_cons_self a t) with ⟨h1, h2, h3⟩ | ⟨h1, h2, h3⟩ | ⟨h1, h2, h3⟩ <;>
      simp [h1, h2, h3]

theorem mem_dictInsert (d : List (String × ClusterSummary)) (kv x : String × ClusterSummary)
    (h : x ∈ dictInsert d kv) : x ∈ d ∨ x = kv := by
  unfold dictInsert at h
  by_cases hany : d.any (fun p => p.1 == kv.1)
  · rw [if_pos hany] at h
    obtain ⟨p', hp', hfp⟩ := List.mem_map.mp h
    by_cases hb : (p'.1 == kv.1) = true
    · rw [if_pos hb] at hfp
      exact Or.inr hfp.symm
    · rw [if_neg hb] at hfp
      exact Or.inl (hfp ▸ hp')
  · rw [if_neg hany] at h
    rcases List.mem_append.mp h with h' | h'
    · exact Or.inl h'
    · exact Or.inr (List.mem_singleton.mp h')

theorem mem_foldl_dictInsert :
    ∀ (pairs d : List (String × ClusterSummary)) (x : String × ClusterSummary),
      x ∈ pairs.foldl dictInsert d → x ∈ d ∨ x ∈ pairs := by
  intro pairs
  induction pairs with
  | nil => intro d x h; exact Or.inl h
  | cons p t ih =>
    intro d x h
    rw [List.foldl_cons] at h
    rcases ih _ x h with h' | h'
    · rcases mem_dictInsert _ _ _ h' with h'' | h''
      · exact Or.inl h''
      · exact Or.inr (h'' ▸ List.mem_cons_self p t)
    · exact Or.inr (List.mem_cons_of_mem p h')

theorem extract_lengths (es : List Event) :
    (_extract_vectors es).1.length = (_extract_vectors es).2.length := by
  simp [_extract_vectors]

theorem extract_docids_nodup (db : List Event)
    (hdb : (db.map (fun e => e.doc_id)).Nodup) :
    (_extract_vectors (db.filter (fun e => e.etype == "chat"))).2.Nodup := by
  simp only [_extract_vectors]
  have hsl : List.Sublist
      (((db.filter (fun e => e.etype == "chat")).filter
        (fun e => vectorTruthy e.query_vector)).map (fun e => e.doc_id))
      (db.map (fun e => e.doc_id)) :=
    List.Sublist.map (fun e : Event => e.doc_id)
      ((List.filter_sublist _).trans (List.filter_sublist _))
  exact List.Nodup.sublist hsl hdb

theorem extract_docids_sub (db : List Event) :
    ∀ x ∈ (_extract_vectors (db.filter (fun e => e.etype == "chat"))).2,
      x ∈ db.map (fun e => e.doc_id) := by
  intro x hx
  simp only [_extract_vectors] at hx
  obtain ⟨e, he, rfl⟩ := List.mem_map.mp hx
  exact List.mem_map_of_mem _ ((List.mem_filter.mp ((List.mem_filter.mp he).1)).1)

/-- The per-cluster tally invariant: for every non-empty cluster entry the
three rating counters over the hydrated members sum to the member count,
provided document ids are unique, every member id resolves in the store,
and ratings range over absent/empty/`helpful`/`not_helpful`. -/
theorem clusterEntry_sum (db : List Event) (g : List String → String)
    (vectors : List (List ℚ)) (doc_ids : List String)
    (labels : List Nat) (centers : List (List ℚ)) (cid : Nat)
    (p : String × ClusterSummary)
    (hdb : (db.map (fun e => e.doc_id)).Nodup)
    (hrat : ∀ e ∈ db, e.rating = Option.none ∨ e.rating = some "" ∨
      e.rating = some "helpful" ∨ e.rating = some "not_helpful")
    (hnd : doc_ids.Nodup)
    (hsub : ∀ x ∈ doc_ids, x ∈ db.map (fun e => e.doc_id))
    (hlen : labels.length ≤ doc_ids.length)
    (he : clusterEntry db g vectors doc_ids labels centers cid = some p) :
    p.2.good + p.2.bad + p.2.«none» = p.2.count := by
  simp only [clusterEntry] at he
  by_cases hemp : ((List.range labels.length).filter
      (fun i => labels.getD i 0 == cid)).isEmpty = true
  · rw [if_pos hemp] at he
    exact absurd he (by simp)
  · rw [if_neg hemp] at he
    injection he with he
    rw [← he]
    have hperm := List.perm_insertionSort
      (fun i j => squaredDistance (vectors.getD i []) (centers.getD cid []) ≤
        squaredDistance (vectors.getD j []) (centers.getD cid []))
      ((List.range labels.length).filter (fun i => labels.getD i 0 == cid))
    set srt := List.insertionSort
      (fun i j => squaredDistance (vectors.getD i []) (centers.getD cid []) ≤
        squaredDistance (vectors.getD j []) (centers.getD cid []))
      ((List.range labels.length).filter (fun i => labels.getD i 0 == cid)) with hsrt
    have hidx_nd : ((List.range labels.length).filter
        (fun i => labels.getD i 0 == cid)).Nodup :=
      (List.nodup_range _).filter _
    have hsrt_nd : srt.Nodup := hperm.nodup_iff.mpr hidx_nd
    have hsrt_lt : ∀ i ∈ srt, i < doc_ids.length := by
      intro i hi
      have hi' := hperm.mem_iff.mp hi
      have := List.mem_range.mp (List.mem_filter.mp hi').1
      omega
    have hcd_nd : (srt.map (fun i => doc_ids.getD i "")).Nodup := by
      apply List.Nodup.map_on ?inj hsrt_nd
      case inj =>
        intro i hi j hj hij
        rw [List.getD_eq_getElem doc_ids "" (hsrt_lt i hi),
          List.getD_eq_getElem doc_ids "" (hsrt_lt j hj)] at hij
        exact (List.Nodup.getElem_inj_iff hnd).mp hij
    have hcd_sub : ∀ x ∈ srt.map (fun i => doc_ids.getD i ""),
        x ∈ db.map (fun e => e.doc_id) := by
      intro x hx
      obtain ⟨i, hi, rfl⟩ := List.mem_map.mp hx
      rw [List.getD_eq_getElem doc_ids "" (hsrt_lt i hi)]
      exact hsub _ (List.getElem_mem _)
    have hhl := hydrate_length db (srt.map (fun i => doc_ids.getD i "")) hdb hcd_nd hcd_sub
    have hpart : ∀ e ∈ get_analytics_events_by_ids db (srt.map (fun i => doc_ids.getD i "")),
        (((e.rating == some "helpful") = true) ∧ ((e.rating == some "not_helpful") = false) ∧
          (ratingFalsy e.rating = false)) ∨
        (((e.rating == some "helpful") = false) ∧ ((e.rating == some "not_helpful") = true) ∧
          (ratingFalsy e.rating = false)) ∨
        (((e.rating == some "helpful") = false) ∧ ((e.rating == some "not_helpful") = false) ∧
          (ratingFalsy e.rating = true)) := by
      intro e hee
      rcases hrat e (hydrate_mem db _ e hee) with h | h | h | h
      · exact Or.inr (Or.inr (by rw [h]; exact ⟨rfl, rfl, rfl⟩))
      · exact Or.inr (Or.inr (by rw [h]; exact ⟨rfl, rfl, rfl⟩))
      · exact Or.inl (by rw [h]; exact ⟨rfl, rfl, rfl⟩)
      · exact Or.inr (Or.inl (by rw [h]; exact ⟨rfl, rfl, rfl⟩))
    show (get_analytics_events_by_ids db (srt.map (fun i => doc_ids.getD i ""))).countP
        (fun e => e.rating == some "helpful") +
      (get_analytics_events_by_ids db (srt.map (fun i => doc_ids.getD i ""))).countP
        (fun e => e.rating == some "not_helpful") +
      (get_analytics_events_by_ids db (srt.map (fun i => doc_ids.getD i ""))).countP
        (fun e => ratingFalsy e.rating) =
      (srt.map (fun i => doc_ids.getD i "")).length
    rw [countP_three_partition _ _ _ _ hpart]
    exact hhl

/-- **C6.**  In every completing run over a store with unique document ids
and ratings confined to absent/empty/`helpful`/`not_helpful` (the only
values the system ever writes — `routes.py` line 327 validates exactly
`['helpful', 'not_helpful']`), every cluster of the report satisfies
`ratings.good + ratings.bad + ratings.none = count`. -/
theorem C6_rating_totals (db : List Event) (m : MiniBatchKMeansModel)
    (g : List String → String) (pid : String) (nc : Option Nat) (ad : Bool)
    (r : CompleteReport) (s : Bool)
    (hdb : (db.map (fun e => e.doc_id)).Nodup)
    (hrat : ∀ e ∈ db, e.rating = Option.none ∨ e.rating = some "" ∨
      e.rating = some "helpful" ∨ e.rating = some "not_helpful")
    (hwf : ∀ v k, (m.fitPredict v k).1.length = v.length)
    (hrun : run_daily_analytics db m g pid nc ad = .ok (.complete r, s)) :
    ∀ q ∈ r.clusters, q.2.good + q.2.bad + q.2.«none» = q.2.count := by
  intro q hq
  rw [run_clusters_eq db m g pid nc ad r s hrun] at hq
  have hq' : q ∈ pipelinePairs db m g nc ad := by
    rcases mem_foldl_dictInsert _ _ _ hq with h | h
    · exact absurd h (List.not_mem_nil q)
    · exact h
  simp only [pipelinePairs, clusterPairs] at hq'
  obtain ⟨cid, -, he⟩ := List.mem_filterMap.mp hq'
  apply clusterEntry_sum db g _ _ _ _ cid q hdb hrat
    (extract_docids_nodup db hdb) (extract_docids_sub db) ?_ he
  rw [hwf, extract_lengths]

/-- **C6, witness**: a two-cluster run on `db5` (ratings: one `helpful`, one
`not_helpful`, three unrated). -/
theorem C6_witness :
    ∃ r, run_daily_analytics db5 fixtureModel constLabeler "p" (some 2) false =
        .ok (.complete r, true)
      ∧ ∀ q ∈ r.clusters, q.2.good + q.2.bad + q.2.«none» = q.2.count :=
  ⟨_, rfl,
    C6_rating_totals db5 fixtureModel constLabeler "p" (some 2) false _ true
      (by decide) (by decide)
      (fun v k => by
        show (fixtureFitPredict v k).1.length = v.length
        unfold fixtureFitPredict
        simp) rfl⟩

end Playground
